import Mathlib

/-!
Verification development for the GA notification agent
(`shared/ga_notification_agent`): the rule parser (`parser.py`) and the
hassle-score model (`models.py`).

The Python code is embedded shallowly:
* strings are `List Char` / `String`; Python `re` patterns are embedded as
  backtracking matchers over `List Char` that enumerate candidate matches in
  Python's priority order (ordered alternation, greedy quantifiers); `search`,
  `finditer` and `sub` drivers mirror `re`'s leftmost, non-overlapping scan;
  `\w`, `\d`, `\s` are modelled over their ASCII ranges (the AIP texts the
  parser consumes are ASCII);
* floats are embedded as rationals `ℚ` (every score constant and operation in
  the source is exact decimal arithmetic);
* Python `int` values produced by `int()` on `\d+` captures are `Nat`;
* `Optional[T]` is `Option T`; pydantic models are structures.
-/

namespace GA

/-! ### Character classes and Python string helpers -/

/-- Python `\s` / `str.strip()` whitespace (ASCII range). -/
def isPyWS (c : Char) : Bool :=
  c = ' ' || c = '\t' || c = '\n' || c = '\r' || c = Char.ofNat 11 || c = Char.ofNat 12

/-- Python `\w` word character (ASCII range): `[A-Za-z0-9_]`. -/
def isWordChar (c : Char) : Bool :=
  c.isAlpha || c.isDigit || c = '_'

/-- Python `\d` (ASCII range). -/
def isDigitChar (c : Char) : Bool := c.isDigit

/-- Python `str.strip()`: remove leading and trailing whitespace. -/
def pyStrip (l : List Char) : List Char :=
  ((l.dropWhile isPyWS).reverse.dropWhile isPyWS).reverse

/-- Python `needle in hay` substring test. -/
def containsSub (needle : List Char) : List Char → Bool
  | [] => needle.isEmpty
  | c :: rest => needle.isPrefixOf (c :: rest) || containsSub needle rest

/-- Python `int()` on a string of decimal digits. -/
def digitsVal (l : List Char) : Nat :=
  l.foldl (fun acc c => 10 * acc + (c.toNat - 48)) 0

/-! ### A tiny backtracking regex engine

A matcher takes the remaining input and returns every way to match a prefix,
as `(capture, rest-of-input)` pairs in Python `re`'s priority order: ordered
alternation first-alternative-first, greedy quantifiers longest-first.  The
match `re` reports is the head of the list. -/

/-- Matchers: all prefix matches, highest priority first. -/
def M (α : Type) : Type := List Char → List (α × List Char)

def mPure (a : α) : M α := fun s => [(a, s)]

def mMap (f : α → β) (p : M α) : M β := fun s => (p s).map (fun x => (f x.1, x.2))

/-- Concatenation of two pattern pieces. -/
def mSeq (p : M α) (q : M β) : M (α × β) := fun s =>
  (p s).flatMap (fun x => (q x.2).map (fun y => ((x.1, y.1), y.2)))

/-- Concatenation, keeping only the second capture. -/
def mThen (p : M α) (q : M β) : M β := mMap Prod.snd (mSeq p q)

/-- Concatenation, keeping only the first capture. -/
def mBefore (p : M α) (q : M β) : M α := mMap Prod.fst (mSeq p q)

/-- Ordered alternation `a|b`: alternatives of `p` take priority. -/
def mAlt (p q : M α) : M α := fun s => p s ++ q s

/-- A single character from a class. -/
def mCls (pred : Char → Bool) : M Char := fun s =>
  match s with
  | [] => []
  | c :: rest => if pred c then [(c, rest)] else []

/-- `X?` (greedy option): the present branch takes priority. -/
def mOpt (p : M α) : M (Option α) := mAlt (mMap some p) (mPure none)

/-- All splits of a greedy `[class]*`, longest first. -/
def starSplits (pred : Char → Bool) : List Char → List (List Char × List Char)
  | [] => [([], [])]
  | c :: rest =>
    if pred c then
      ((starSplits pred rest).map (fun x => (c :: x.1, x.2))) ++ [([], c :: rest)]
    else
      [([], c :: rest)]

/-- Greedy `[class]*`. -/
def mStarCls (pred : Char → Bool) : M (List Char) := fun s => starSplits pred s

/-- Greedy `[class]+`. -/
def mPlusCls (pred : Char → Bool) : M (List Char) :=
  mMap (fun x => x.1 :: x.2) (mSeq (mCls pred) (mStarCls pred))

/-- A case-insensitive literal, capturing the matched characters. -/
def mLitCI (w : String) : M (List Char) :=
  w.data.foldr
    (fun c acc => mMap (fun x => x.1 :: x.2) (mSeq (mCls (fun x => x.toLower = c.toLower)) acc))
    (mPure [])

/-- `\s*` (captureless). -/
def mWS0 : M Unit := mMap (fun _ => ()) (mStarCls isPyWS)

/-- `\s+` (captureless). -/
def mWS1 : M Unit := mMap (fun _ => ()) (mPlusCls isPyWS)

/-! ### Drivers: `re.search` with word boundaries, `re.finditer`, `re.sub` -/

/-- Left side of `\b` for a pattern whose body starts with a word character:
the previous character, if any, is not a word character. -/
def leftBoundary : Option Char → Bool
  | none => true
  | some p => !isWordChar p

/-- Right side of `\b` for a body ending in a word character: the next
character, if any, is not a word character. -/
def rightBoundary : List Char → Bool
  | [] => true
  | c :: _ => !isWordChar c

/-- Scan for `\b BODY \b` (body beginning and ending with word characters),
as `re.search`: does any position admit a match with both boundaries? -/
def searchWBFrom (body : M α) : Option Char → List Char → Bool
  | prev, s =>
    (leftBoundary prev && (body s).any (fun x => rightBoundary x.2))
    || match s with
       | [] => false
       | c :: rest => searchWBFrom body (some c) rest

/-- `re.search` for a `\b`-delimited pattern. -/
def searchWB (body : M α) (s : List Char) : Bool := searchWBFrom body none s

/-- `re.search` for a pattern with no word-boundary anchors: does some
position admit a match? -/
def searchPlain (m : M α) : List Char → Bool
  | [] => false
  | c :: rest => !(m (c :: rest)).isEmpty || searchPlain m rest

/-- The scan of `re.finditer`, with explicit fuel (each step strictly shrinks
the input, so fuel `s.length` never runs out; see `finditer`). -/
def finditerFuel (m : M α) : Nat → List Char → List (List Char × α)
  | 0, _ => []
  | _, [] => []
  | fuel + 1, c :: rest =>
    match (m (c :: rest)).head? with
    | none => finditerFuel m fuel rest
    | some (a, rem) =>
      if rem.length < rest.length + 1 then
        ((c :: rest).take (rest.length + 1 - rem.length), a) :: finditerFuel m fuel rem
      else
        (([] : List Char), a) :: finditerFuel m fuel rest

/-- `re.finditer`: leftmost non-overlapping matches, each as
`(matched characters, capture)`; scanning resumes after each match. -/
def finditer (m : M α) (s : List Char) : List (List Char × α) :=
  finditerFuel m s.length s

/-- The scan of `re.sub`, with explicit fuel (see `reSubDel`). -/
def reSubDelFuel (m : M α) : Nat → List Char → List Char
  | 0, s => s
  | _, [] => []
  | fuel + 1, c :: rest =>
    match (m (c :: rest)).head? with
    | none => c :: reSubDelFuel m fuel rest
    | some (_, rem) =>
      if rem.length < rest.length + 1 then
        reSubDelFuel m fuel rem
      else
        c :: reSubDelFuel m fuel rest

/-- `re.sub(pattern, "", s)`: delete every leftmost non-overlapping match. -/
def reSubDel (m : M α) (s : List Char) : List Char :=
  reSubDelFuel m s.length s

/-! ### The parser's regex patterns (`NotificationParser` class attributes)

Each definition transcribes one `re.compile` pattern from `parser.py`,
alternatives in source order. -/

/-- `(?:PPR|PN|PPR\s*PN)` — the prefix alternation of `HOURS_PATTERN`. -/
def pprPnTok : M Unit :=
  mAlt (mMap (fun _ => ()) (mLitCI "PPR"))
    (mAlt (mMap (fun _ => ()) (mLitCI "PN"))
      (mThen (mLitCI "PPR") (mThen mWS0 (mMap (fun _ => ()) (mLitCI "PN")))))

/-- `(?:HR?S?|HOURS?)` — the hour-unit alternation. -/
def hrTok : M Unit :=
  mAlt
    (mThen (mLitCI "H") (mThen (mOpt (mLitCI "R")) (mMap (fun _ => ()) (mOpt (mLitCI "S")))))
    (mThen (mLitCI "HOUR") (mMap (fun _ => ()) (mOpt (mLitCI "S"))))

/-- `(\d+)` capture converted by `int()`. -/
def digitsCap : M Nat := mMap digitsVal (mPlusCls isDigitChar)

/-- `HOURS_PATTERN` alternative 1:
`(?:(?:PPR|PN|PPR\s*PN)\s*(?:MNM\s+)?(\d+)\s*(?:HR?S?|HOURS?))`. -/
def hoursAlt1 : M Nat :=
  mThen pprPnTok (mThen mWS0 (mThen (mOpt (mBefore (mLitCI "MNM") mWS1))
    (mBefore digitsCap (mThen mWS0 hrTok))))

/-- `HOURS_PATTERN` alternative 2:
`(?:(\d+)\s*(?:HR?S?|HOURS?)\s*(?:PPR|PN)\s*(?:MNM)?)`. -/
def hoursAlt2 : M Nat :=
  mBefore digitsCap
    (mThen mWS0 (mThen hrTok (mThen mWS0
      (mThen (mAlt (mMap (fun _ => ()) (mLitCI "PPR")) (mMap (fun _ => ()) (mLitCI "PN")))
        (mThen mWS0 (mMap (fun _ => ()) (mOpt (mLitCI "MNM"))))))))

/-- `HOURS_PATTERN` alternative 3:
`(?:(\d+)\s*(?:HR?S?|HOURS?)\s+(?:prior\s+)?(?:notice|advance|PN))`. -/
def hoursAlt3 : M Nat :=
  mBefore digitsCap
    (mThen mWS0 (mThen hrTok (mThen mWS1
      (mThen (mOpt (mBefore (mLitCI "prior") mWS1))
        (mAlt (mMap (fun _ => ()) (mLitCI "notice"))
          (mAlt (mMap (fun _ => ()) (mLitCI "advance")) (mMap (fun _ => ()) (mLitCI "PN"))))))))

/-- `HOURS_PATTERN`: the three alternatives in source order; the capture is the
matched hours number (the first non-`None` of groups 1–3). -/
def hoursPat : M Nat := mAlt hoursAlt1 (mAlt hoursAlt2 hoursAlt3)

/-- One day-name alternative such as `MON(?:DAY)?`, capturing matched text. -/
def dayAbbr (short long : String) : M (List Char) :=
  mMap (fun x => x.1 ++ (x.2.getD [])) (mSeq (mLitCI short) (mOpt (mLitCI long)))

/-- `WEEK-?END`, capturing matched text. -/
def weekendTok : M (List Char) :=
  mMap (fun x => x.1 ++ (x.2.1.getD []) ++ x.2.2)
    (mSeq (mLitCI "WEEK") (mSeq (mOpt (mLitCI "-")) (mLitCI "END")))

/-- `WEEK-?DAYS?`, capturing matched text. -/
def weekdaysTok : M (List Char) :=
  mMap (fun x => x.1 ++ (x.2.1.getD []) ++ x.2.2.1 ++ (x.2.2.2.getD []))
    (mSeq (mLitCI "WEEK") (mSeq (mOpt (mLitCI "-")) (mSeq (mLitCI "DAY") (mOpt (mLitCI "S")))))

/-- `HOL(?:IDAYS?)?`, capturing matched text. -/
def holTok : M (List Char) :=
  mMap (fun x => x.1 ++ (x.2.getD []))
    (mSeq (mLitCI "HOL")
      (mOpt (mMap (fun y => y.1 ++ (y.2.getD [])) (mSeq (mLitCI "IDAY") (mOpt (mLitCI "S"))))))

/-- Group 1 of `WEEKDAY_HOURS_PATTERN`:
`(MON(?:DAY)?|…|SUN(?:DAY)?|WEEK-?END|WEEK-?DAYS?|HOL(?:IDAYS?)?)`. -/
def dayTok1 : M (List Char) :=
  mAlt (dayAbbr "MON" "DAY") (mAlt (dayAbbr "TUE" "SDAY") (mAlt (dayAbbr "WED" "NESDAY")
    (mAlt (dayAbbr "THU" "RSDAY") (mAlt (dayAbbr "FRI" "DAY") (mAlt (dayAbbr "SAT" "URDAY")
      (mAlt (dayAbbr "SUN" "DAY") (mAlt weekendTok (mAlt weekdaysTok holTok))))))))

/-- Group 2 of `WEEKDAY_HOURS_PATTERN`:
`(MON(?:DAY)?|…|SUN(?:DAY)?|HOL(?:IDAYS?)?)`. -/
def dayTok2 : M (List Char) :=
  mAlt (dayAbbr "MON" "DAY") (mAlt (dayAbbr "TUE" "SDAY") (mAlt (dayAbbr "WED" "NESDAY")
    (mAlt (dayAbbr "THU" "RSDAY") (mAlt (dayAbbr "FRI" "DAY") (mAlt (dayAbbr "SAT" "URDAY")
      (mAlt (dayAbbr "SUN" "DAY") holTok))))))

/-- `[-–]` (hyphen or en dash). -/
def dashCls : Char → Bool := fun c => c = '-' || c.toNat = 0x2013

/-- `WEEKDAY_HOURS_PATTERN`: day range, `\s*[,:]\s*`, optional PPR/PN prefix,
optional `MNM`, hours.  Captures (group 1, optional group 2, hours). -/
def weekdayHoursPat : M (List Char × Option (List Char) × Nat) :=
  mMap (fun x => (x.1, x.2.1, x.2.2))
    (mSeq dayTok1
      (mSeq (mOpt (mThen mWS0 (mThen (mCls dashCls) (mThen mWS0 dayTok2))))
        (mThen mWS0 (mThen (mCls (fun c => c = ',' || c = ':'))
          (mThen mWS0 (mThen (mOpt pprPnTok)
            (mThen mWS0 (mThen (mOpt (mBefore (mLitCI "MNM") mWS1))
              (mBefore digitsCap (mThen mWS0 hrTok))))))))))

/-- `H24_PATTERN` body (`\bH24\b`). -/
def h24Body : M Unit := mMap (fun _ => ()) (mLitCI "H24")

/-- `ON_REQUEST_PATTERN` body:
`O/R|on\s+request|by\s+(?:prior\s+)?arrangement|sur\s+demande|subject\s+to\s+(?:notified|notice)`. -/
def onRequestBody : M Unit :=
  mAlt (mMap (fun _ => ()) (mLitCI "O/R"))
    (mAlt (mThen (mLitCI "on") (mThen mWS1 (mMap (fun _ => ()) (mLitCI "request"))))
      (mAlt (mThen (mLitCI "by") (mThen mWS1 (mThen (mOpt (mBefore (mLitCI "prior") mWS1))
          (mMap (fun _ => ()) (mLitCI "arrangement")))))
        (mAlt (mThen (mLitCI "sur") (mThen mWS1 (mMap (fun _ => ()) (mLitCI "demande"))))
          (mThen (mLitCI "subject") (mThen mWS1 (mThen (mLitCI "to") (mThen mWS1
            (mAlt (mMap (fun _ => ()) (mLitCI "notified"))
              (mMap (fun _ => ()) (mLitCI "notice"))))))))))

/-- `AS_AD_HOURS_PATTERN` body:
`as\s+AD\s+(?:hours?|HR)|AD\s+OPR\s+HR|HR\s+AD|AS\s+AD\s+HR`. -/
def asAdHoursBody : M Unit :=
  mAlt (mThen (mLitCI "as") (mThen mWS1 (mThen (mLitCI "AD") (mThen mWS1
      (mAlt (mThen (mLitCI "hour") (mMap (fun _ => ()) (mOpt (mLitCI "s"))))
        (mMap (fun _ => ()) (mLitCI "HR")))))))
    (mAlt (mThen (mLitCI "AD") (mThen mWS1 (mThen (mLitCI "OPR") (mThen mWS1
        (mMap (fun _ => ()) (mLitCI "HR"))))))
      (mAlt (mThen (mLitCI "HR") (mThen mWS1 (mMap (fun _ => ()) (mLitCI "AD"))))
        (mThen (mLitCI "AS") (mThen mWS1 (mThen (mLitCI "AD") (mThen mWS1
          (mMap (fun _ => ()) (mLitCI "HR"))))))))

/-- `BUSINESS_DAY_PATTERN`:
`(?:last\s+)?(?:working|business)\s+day\s+(?:before\s+)?(\d{4})?`; the capture
is the optional `\d{4}` group as matched characters. -/
def businessDayPat : M (Option (List Char)) :=
  mThen (mOpt (mBefore (mLitCI "last") mWS1))
    (mThen (mAlt (mMap (fun _ => ()) (mLitCI "working")) (mMap (fun _ => ()) (mLitCI "business")))
      (mThen mWS1 (mThen (mLitCI "day")
        (mThen mWS1 (mThen (mOpt (mBefore (mLitCI "before") mWS1))
          (mOpt (mMap (fun x => [x.1, x.2.1, x.2.2.1, x.2.2.2])
            (mSeq (mCls isDigitChar) (mSeq (mCls isDigitChar)
              (mSeq (mCls isDigitChar) (mCls isDigitChar)))))))))))

/-- `SCHENGEN_PATTERN` body:
`extra[- ]?schengen|non[- ]?schengen|outside\s+(?:the\s+)?schengen`. -/
def schengenBody : M Unit :=
  mAlt (mThen (mLitCI "extra") (mThen (mOpt (mCls (fun c => c = '-' || c = ' ')))
      (mMap (fun _ => ()) (mLitCI "schengen"))))
    (mAlt (mThen (mLitCI "non") (mThen (mOpt (mCls (fun c => c = '-' || c = ' ')))
        (mMap (fun _ => ()) (mLitCI "schengen"))))
      (mThen (mLitCI "outside") (mThen mWS1 (mThen (mOpt (mBefore (mLitCI "the") mWS1))
        (mMap (fun _ => ()) (mLitCI "schengen"))))))

/-- `INTRA_SCHENGEN_PATTERN` body:
`intra[- ]?schengen|within\s+(?:the\s+)?schengen|schengen\s+(?:flights?|only)`. -/
def intraSchengenBody : M Unit :=
  mAlt (mThen (mLitCI "intra") (mThen (mOpt (mCls (fun c => c = '-' || c = ' ')))
      (mMap (fun _ => ()) (mLitCI "schengen"))))
    (mAlt (mThen (mLitCI "within") (mThen mWS1 (mThen (mOpt (mBefore (mLitCI "the") mWS1))
        (mMap (fun _ => ()) (mLitCI "schengen")))))
      (mThen (mLitCI "schengen") (mThen mWS1
        (mAlt (mThen (mLitCI "flight") (mMap (fun _ => ()) (mOpt (mLitCI "s"))))
          (mMap (fun _ => ()) (mLitCI "only"))))))

/-- The `re.sub` pattern in `_parse_day`: `\s*(?:and\s+)?hol(?:idays?)?`. -/
def holSubPat : M Unit :=
  mThen mWS0 (mThen (mOpt (mBefore (mLitCI "and") mWS1))
    (mThen (mLitCI "hol")
      (mMap (fun _ => ()) (mOpt (mThen (mLitCI "iday") (mOpt (mLitCI "s")))))))

/-! ### Data model (`models.py`) -/

/-- `RuleType` enum. -/
inductive RuleType where
  | ppr
  | pn
  | customs
  | immigration
  | handling
deriving DecidableEq, Repr

/-- `NotificationType` enum. -/
inductive NotificationType where
  | hours
  | business_day
  | specific_time
  | on_request
  | h24
  | as_ad_hours
  | not_available
  | unknown
deriving DecidableEq, Repr

/-- `NotificationRule` pydantic model. -/
structure NotificationRule where
  rule_type : RuleType
  notification_type : NotificationType
  hours_notice : Option Nat
  weekday_start : Option Nat
  weekday_end : Option Nat
  includes_holidays : Bool
  business_day_offset : Option Int
  specific_time : Option String
  hours_start : Option String
  hours_end : Option String
  is_obligatory : Bool
  schengen_only : Bool
  non_schengen_only : Bool
  conditions : Option (List (String × String))
  raw_text : Option String
  confidence : ℚ
  extraction_method : String
deriving DecidableEq, Repr

/-- A `NotificationRule` with every field at its pydantic default. -/
def mkRule (rt : RuleType) (nt : NotificationType) : NotificationRule :=
  { rule_type := rt, notification_type := nt, hours_notice := none,
    weekday_start := none, weekday_end := none, includes_holidays := false,
    business_day_offset := none, specific_time := none,
    hours_start := none, hours_end := none, is_obligatory := true,
    schengen_only := false, non_schengen_only := false, conditions := none,
    raw_text := none, confidence := 1, extraction_method := "regex" }

/-- `NotificationRule.get_weekday_description`. -/
def NotificationRule.get_weekday_description (r : NotificationRule) : String :=
  let days := ["MON", "TUE", "WED", "THU", "FRI", "SAT", "SUN"]
  match r.weekday_start with
  | none => "all days"
  | some ws =>
    match r.weekday_end with
    | none => days.getD ws ""
    | some we =>
      if ws = 0 ∧ we = 4 then "weekdays"
      else if ws = 5 ∧ we = 6 then "weekends"
      else days.getD ws "" ++ "-" ++ days.getD we ""

/-- `ParsedNotificationRules` pydantic model. -/
structure ParsedNotificationRules where
  icao : String
  rules : List NotificationRule
  raw_text : String
  source_std_field_id : Int
  parse_warnings : List String
deriving DecidableEq, Repr

namespace ParsedNotificationRules

/-- `has_rules` property: `len(self.rules) > 0`. -/
def has_rules (p : ParsedNotificationRules) : Bool := !p.rules.isEmpty

/-- `is_h24` property: any rule has `notification_type == H24`. -/
def is_h24 (p : ParsedNotificationRules) : Bool :=
  p.rules.any (fun r => r.notification_type == NotificationType.h24)

/-- `is_on_request` property: all rules are `ON_REQUEST`, and there are rules. -/
def is_on_request (p : ParsedNotificationRules) : Bool :=
  p.rules.all (fun r => r.notification_type == NotificationType.on_request) && p.has_rules

/-- `max_hours_notice` property: maximum `hours_notice` over the rules,
`None` when no rule has one. -/
def max_hours_notice (p : ParsedNotificationRules) : Option Nat :=
  (p.rules.filterMap (fun r => r.hours_notice)).max?

/-- One iteration of the summary loop in `get_summary`. -/
def summaryOf (r : NotificationRule) : Option String :=
  if r.notification_type = NotificationType.hours ∧
      (∃ h, r.hours_notice = some h ∧ h ≠ 0) then
    match r.hours_notice with
    | some h =>
      let wd := r.get_weekday_description
      if wd = "all days" then some ("PPR " ++ toString h ++ "h")
      else some (wd ++ ": PPR " ++ toString h ++ "h")
    | none => none
  else if r.notification_type = NotificationType.business_day then
    match r.specific_time with
    | some t => some ("Last business day before " ++ t)
    | none => some "Last business day"
  else if r.notification_type = NotificationType.on_request then
    some "O/R"
  else
    none

/-- `get_summary` method. -/
def get_summary (p : ParsedNotificationRules) : String :=
  if !p.has_rules then "No notification rules parsed"
  else if p.is_h24 then "H24 - No prior notice required"
  else if p.is_on_request then "On request / by arrangement"
  else
    let summaries := p.rules.filterMap summaryOf
    if summaries.isEmpty then "See detailed rules"
    else String.intercalate "; " summaries

end ParsedNotificationRules

/-- `HassleLevel` enum. -/
inductive HassleLevel where
  | none_
  | low
  | moderate
  | high
  | very_high
  | not_available
deriving DecidableEq, Repr

/-- `HassleScore` pydantic model. -/
structure HassleScore where
  icao : String
  level : HassleLevel
  score : ℚ
  summary : String
  max_hours_notice : Option Nat
  has_weekend_rules : Bool
  has_schengen_rules : Bool
deriving DecidableEq, Repr

/-- Python's two-argument `min` on rationals (`min(a, b)` returns `b`
exactly when `b < a`).  Kept as an explicit `if` so that it evaluates by
kernel reduction; `ratMin_eq_min` identifies it with `min`. -/
def ratMin (a b : ℚ) : ℚ := if b < a then b else a

/-- The level/score assignment chain of `from_parsed_rules` (the
`elif` ladder on `max_hours`): level and base score from `max_hours_notice`. -/
def levelScoreOf : Option Nat → HassleLevel × ℚ
  | none => (HassleLevel.high, 0.7)
  | some m =>
    if m ≤ 2 then (HassleLevel.low, 0.15)
    else if m ≤ 12 then (HassleLevel.low, 0.25)
    else if m ≤ 24 then (HassleLevel.moderate, 0.4)
    else if m ≤ 48 then (HassleLevel.high, 0.6)
    else if m ≤ 72 then (HassleLevel.high, 0.75)
    else (HassleLevel.very_high, 0.9)

/-- `has_weekend` in `from_parsed_rules`: any rule has `weekday_start == 5`
or `includes_holidays`. -/
def hasWeekendB (p : ParsedNotificationRules) : Bool :=
  p.rules.any (fun r => r.weekday_start == some 5 || r.includes_holidays)

/-- `has_schengen` in `from_parsed_rules`. -/
def hasSchengenB (p : ParsedNotificationRules) : Bool :=
  p.rules.any (fun r => r.schengen_only || r.non_schengen_only)

/-- `HassleScore.from_parsed_rules`: compute the hassle score from parsed
rules, following the early-return chain of the source. -/
def HassleScore.from_parsed_rules (parsed : ParsedNotificationRules) : HassleScore :=
  let icao := parsed.icao
  if !parsed.has_rules then
    { icao := icao, level := HassleLevel.moderate, score := 0.5,
      summary := "Unable to parse notification rules",
      max_hours_notice := none, has_weekend_rules := false, has_schengen_rules := false }
  else if parsed.is_h24 then
    { icao := icao, level := HassleLevel.none_, score := 0.0,
      summary := "H24 - No prior notice required",
      max_hours_notice := none, has_weekend_rules := false, has_schengen_rules := false }
  else if parsed.is_on_request then
    { icao := icao, level := HassleLevel.low, score := 0.2,
      summary := "On request / by arrangement",
      max_hours_notice := none, has_weekend_rules := false, has_schengen_rules := false }
  else if parsed.rules.all (fun r => r.notification_type == NotificationType.as_ad_hours) then
    { icao := icao, level := HassleLevel.low, score := 0.15,
      summary := "As aerodrome hours",
      max_hours_notice := none, has_weekend_rules := false, has_schengen_rules := false }
  else
    let max_hours := parsed.max_hours_notice
    let has_weekend := hasWeekendB parsed
    let has_schengen := hasSchengenB parsed
    let ls := levelScoreOf max_hours
    let score := if has_weekend then ratMin 1.0 (ls.2 + 0.1) else ls.2
    { icao := icao, level := ls.1, score := score,
      summary := parsed.get_summary,
      max_hours_notice := max_hours, has_weekend_rules := has_weekend,
      has_schengen_rules := has_schengen }

/-! ### The parser (`NotificationParser` methods) -/

/-- `DAY_MAP` dictionary lookup: single days map to a day number, ranges to a
pair; the second component mirrors Python's `(result, None)` vs
`(result[0], result[1])` split in `_parse_day`. -/
def dayMap (s : String) : Option (Nat × Option Nat) :=
  if s = "mon" ∨ s = "monday" then some (0, none)
  else if s = "tue" ∨ s = "tuesday" then some (1, none)
  else if s = "wed" ∨ s = "wednesday" then some (2, none)
  else if s = "thu" ∨ s = "thursday" then some (3, none)
  else if s = "fri" ∨ s = "friday" then some (4, none)
  else if s = "sat" ∨ s = "saturday" then some (5, none)
  else if s = "sun" ∨ s = "sunday" then some (6, none)
  else if s = "weekday" ∨ s = "weekdays" then some (0, some 4)
  else if s = "week-end" ∨ s = "weekend" then some (5, some 6)
  else none

/-- `_parse_day`: lowercase and strip, record whether `"hol"` occurs, delete
the holiday suffix, and look the remainder up in `DAY_MAP`.  Returns
`(start_day, end_day, includes_holidays)`. -/
def parse_day (day : List Char) : Option Nat × Option Nat × Bool :=
  let d := pyStrip (day.map Char.toLower)
  let includes_holidays := containsSub "hol".data d
  let d2 := pyStrip (reSubDel holSubPat d)
  match dayMap (String.mk d2) with
  | some (a, b) => (some a, b, includes_holidays)
  | none => (none, none, includes_holidays)

/-- `_extract_weekday_rules`: one rule per `WEEKDAY_HOURS_PATTERN` match. -/
def extract_weekday_rules (t : List Char) : List NotificationRule :=
  (finditer weekdayHoursPat t).map (fun m =>
    let day1 := m.2.1
    let day2 := m.2.2.1
    let hours := m.2.2.2
    let p1 := parse_day day1
    let start_day := p1.1
    let includes_hol1 := p1.2.2
    let endIncl : Option Nat × Bool :=
      match day2 with
      | some d2 =>
        let p2 := parse_day d2
        (p2.1, includes_hol1 || p2.2.2)
      | none => (p1.2.1, includes_hol1)
    { mkRule RuleType.ppr NotificationType.hours with
        hours_notice := some hours,
        weekday_start := start_day,
        weekday_end := endIncl.1,
        includes_holidays := endIncl.2,
        raw_text := some (String.mk m.1),
        confidence := 0.85 })

/-- The pre-deduplication rule list of `_extract_hours_rules`: one rule per
`HOURS_PATTERN` match. -/
def rawHoursRules (t : List Char) : List NotificationRule :=
  (finditer hoursPat t).map (fun m =>
    { mkRule RuleType.ppr NotificationType.hours with
        hours_notice := some m.2,
        raw_text := some (String.mk m.1),
        confidence := 0.8 })

/-- The deduplication loop of `_extract_hours_rules`: keep a rule when its
`hours_notice` was not seen before. -/
def dedupByHours (seen : List (Option Nat)) : List NotificationRule → List NotificationRule
  | [] => []
  | r :: rest =>
    if r.hours_notice ∈ seen then dedupByHours seen rest
    else r :: dedupByHours (r.hours_notice :: seen) rest

/-- `_extract_hours_rules`: hours rules, deduplicated by `hours_notice`. -/
def extract_hours_rules (t : List Char) : List NotificationRule :=
  dedupByHours [] (rawHoursRules t)

/-- `_extract_business_day_rules`: one rule per `BUSINESS_DAY_PATTERN` match. -/
def extract_business_day_rules (t : List Char) : List NotificationRule :=
  (finditer businessDayPat t).map (fun m =>
    { mkRule RuleType.ppr NotificationType.business_day with
        business_day_offset := some (-1),
        specific_time := m.2.map String.mk,
        raw_text := some (String.mk m.1),
        confidence := 0.75 })

/-- The body of the Schengen-context loop in `parse`: annotate one rule from
the two pattern search results. -/
def schengenAnnot (is_non_schengen is_schengen : Bool) (r : NotificationRule) :
    NotificationRule :=
  if is_non_schengen && !is_schengen then { r with non_schengen_only := true }
  else if is_schengen && !is_non_schengen then { r with schengen_only := true }
  else r

/-- `NotificationParser.parse`.  `use_llm_fallback` is the constructor flag
(default `False`); `_parse_with_llm` in the source returns `[]`, so the LLM
branch only changes the warning text. -/
def parse (use_llm_fallback : Bool) (icao : String) (text : String)
    (std_field_id : Int) : ParsedNotificationRules :=
  if text.data.isEmpty || (pyStrip text.data).isEmpty then
    { icao := icao, rules := [], raw_text := text,
      source_std_field_id := std_field_id, parse_warnings := ["Empty text"] }
  else
    let t := pyStrip text.data
    let rules :=
      if searchWB h24Body t then
        [{ mkRule RuleType.customs NotificationType.h24 with
            raw_text := some (String.mk t), confidence := 0.95 }]
      else if searchWB onRequestBody t && !searchPlain hoursPat t then
        [{ mkRule RuleType.customs NotificationType.on_request with
            raw_text := some (String.mk t), confidence := 0.9 }]
      else if searchWB asAdHoursBody t && !searchPlain hoursPat t then
        [{ mkRule RuleType.customs NotificationType.as_ad_hours with
            raw_text := some (String.mk t), confidence := 0.9 }]
      else
        let weekday_rules := extract_weekday_rules t
        let base := if weekday_rules.isEmpty then extract_hours_rules t else weekday_rules
        base ++ extract_business_day_rules t
    let rules := rules.map
      (schengenAnnot (searchWB schengenBody t) (searchWB intraSchengenBody t))
    let warnings : List String :=
      if rules.isEmpty && use_llm_fallback then ["Could not parse with regex or LLM"]
      else if rules.isEmpty then ["Could not parse notification rules with regex patterns"]
      else []
    { icao := icao, rules := rules, raw_text := String.mk t,
      source_std_field_id := std_field_id, parse_warnings := warnings }

/-! ## Helper lemmas -/

/-- `ratMin` is the usual `min`. -/
theorem ratMin_eq_min (a b : ℚ) : ratMin a b = min a b := by
  unfold ratMin
  rcases lt_or_ge b a with h | h
  · simp [h, min_eq_right h.le]
  · simp [not_lt.mpr h, min_eq_left h]

/-- `levelScoreOf` on a present maximum, unfolded. -/
theorem levelScoreOf_some (m : Nat) :
    levelScoreOf (some m) =
      (if m ≤ 2 then (HassleLevel.low, (0.15 : ℚ))
       else if m ≤ 12 then (HassleLevel.low, 0.25)
       else if m ≤ 24 then (HassleLevel.moderate, 0.4)
       else if m ≤ 48 then (HassleLevel.high, 0.6)
       else if m ≤ 72 then (HassleLevel.high, 0.75)
       else (HassleLevel.very_high, 0.9)) := rfl

/-- On inputs past the four early returns, `from_parsed_rules` produces the
hours-based record: level and base score from `levelScoreOf`, a weekend
penalty clamped at 1, and the weekend/schengen flags. -/
theorem from_parsed_rules_hoursBranch (p : ParsedNotificationRules)
    (h1 : p.has_rules = true) (h2 : p.is_h24 = false) (h3 : p.is_on_request = false)
    (h4 : p.rules.all (fun r => r.notification_type == NotificationType.as_ad_hours) = false) :
    HassleScore.from_parsed_rules p =
      { icao := p.icao,
        level := (levelScoreOf p.max_hours_notice).1,
        score :=
          if hasWeekendB p then ratMin 1.0 ((levelScoreOf p.max_hours_notice).2 + 0.1)
          else (levelScoreOf p.max_hours_notice).2,
        summary := p.get_summary,
        max_hours_notice := p.max_hours_notice,
        has_weekend_rules := hasWeekendB p,
        has_schengen_rules := hasSchengenB p } := by
  unfold HassleScore.from_parsed_rules
  simp [h1, h2, h3, h4]

/-! ## Claims -/

/-- C1: for every `ParsedNotificationRules` with a non-empty rules list that
is not H24, not all-ON_REQUEST and not all-AS_AD_HOURS,
`HassleScore.from_parsed_rules` assigns level and base score solely from
`max_hours_notice` by the fixed table (`None` → HIGH/0.7, `≤ 2` → LOW/0.15,
`≤ 12` → LOW/0.25, `≤ 24` → MODERATE/0.4, `≤ 48` → HIGH/0.6, `≤ 72` →
HIGH/0.75, `> 72` → VERY_HIGH/0.9); in particular 72 → HIGH/0.75 and
73 → VERY_HIGH/0.9.  The score before the weekend penalty is the table
value (the penalty, when it applies, adds 0.1 clamped at 1). -/
theorem C1_hours_table (p : ParsedNotificationRules)
    (h1 : p.has_rules = true) (h2 : p.is_h24 = false) (h3 : p.is_on_request = false)
    (h4 : p.rules.all (fun r => r.notification_type == NotificationType.as_ad_hours) = false) :
    (HassleScore.from_parsed_rules p).level = (levelScoreOf p.max_hours_notice).1 ∧
    (HassleScore.from_parsed_rules p).score =
      (if hasWeekendB p then ratMin 1.0 ((levelScoreOf p.max_hours_notice).2 + 0.1)
       else (levelScoreOf p.max_hours_notice).2) ∧
    levelScoreOf none = (HassleLevel.high, 0.7) ∧
    (∀ m : Nat, m ≤ 2 → levelScoreOf (some m) = (HassleLevel.low, 0.15)) ∧
    (∀ m : Nat, 2 < m → m ≤ 12 → levelScoreOf (some m) = (HassleLevel.low, 0.25)) ∧
    (∀ m : Nat, 12 < m → m ≤ 24 → levelScoreOf (some m) = (HassleLevel.moderate, 0.4)) ∧
    (∀ m : Nat, 24 < m → m ≤ 48 → levelScoreOf (some m) = (HassleLevel.high, 0.6)) ∧
    (∀ m : Nat, 48 < m → m ≤ 72 → levelScoreOf (some m) = (HassleLevel.high, 0.75)) ∧
    (∀ m : Nat, 72 < m → levelScoreOf (some m) = (HassleLevel.very_high, 0.9)) ∧
    levelScoreOf (some 72) = (HassleLevel.high, 0.75) ∧
    levelScoreOf (some 73) = (HassleLevel.very_high, 0.9) := by
  rw [from_parsed_rules_hoursBranch p h1 h2 h3 h4]
  refine ⟨rfl, rfl, rfl, ?_, ?_, ?_, ?_, ?_, ?_, ?_, ?_⟩
  · intro m hm; rw [levelScoreOf_some, if_pos hm]
  · intro m hm1 hm2
    rw [levelScoreOf_some, if_neg (by omega), if_pos hm2]
  · intro m hm1 hm2
    rw [levelScoreOf_some, if_neg (by omega), if_neg (by omega), if_pos hm2]
  · intro m hm1 hm2
    rw [levelScoreOf_some, if_neg (by omega), if_neg (by omega), if_neg (by omega),
      if_pos hm2]
  · intro m hm1 hm2
    rw [levelScoreOf_some, if_neg (by omega), if_neg (by omega), if_neg (by omega),
      if_neg (by omega), if_pos hm2]
  · intro m hm
    rw [levelScoreOf_some, if_neg (by omega), if_neg (by omega), if_neg (by omega),
      if_neg (by omega), if_neg (by omega)]
  · rw [levelScoreOf_some, if_neg (by omega), if_neg (by omega), if_neg (by omega),
      if_neg (by omega), if_pos (by omega)]
  · rw [levelScoreOf_some, if_neg (by omega), if_neg (by omega), if_neg (by omega),
      if_neg (by omega), if_neg (by omega)]

/-- A parsed record with a single 73-hour rule, used to instantiate C1. -/
def pWit73 : ParsedNotificationRules :=
  { icao := "X",
    rules := [{ mkRule RuleType.ppr NotificationType.hours with hours_notice := some 73 }],
    raw_text := "PPR 73 HR", source_std_field_id := 302, parse_warnings := [] }

/-- C1 instantiated: a lone 73-hour rule scores VERY_HIGH. -/
theorem C1_hours_table_witness :
    (HassleScore.from_parsed_rules pWit73).level = HassleLevel.very_high :=
  (C1_hours_table pWit73 (by decide) (by decide) (by decide) (by decide)).1.trans (by decide)

/-- `schengenAnnot` only touches the two Schengen flags: every other field is
unchanged. -/
theorem schengenAnnot_fields (a b : Bool) (r : NotificationRule) :
    (schengenAnnot a b r).notification_type = r.notification_type ∧
    (schengenAnnot a b r).confidence = r.confidence ∧
    (schengenAnnot a b r).raw_text = r.raw_text ∧
    (schengenAnnot a b r).hours_notice = r.hours_notice ∧
    (schengenAnnot a b r).weekday_start = r.weekday_start ∧
    (schengenAnnot a b r).weekday_end = r.weekday_end ∧
    (schengenAnnot a b r).includes_holidays = r.includes_holidays := by
  unfold schengenAnnot
  split
  · exact ⟨rfl, rfl, rfl, rfl, rfl, rfl, rfl⟩
  split
  · exact ⟨rfl, rfl, rfl, rfl, rfl, rfl, rfl⟩
  · exact ⟨rfl, rfl, rfl, rfl, rfl, rfl, rfl⟩

/-- C2 (counterexample): the input `" H24 "` is non-empty and contains the
token `H24` at word boundaries, yet the one emitted rule's `raw_text` is the
stripped text `"H24"`, not the full input text. -/
theorem C2_raw_text_cex :
    (" H24 " : String) ≠ "" ∧
    searchWB h24Body " H24 ".data = true ∧
    (parse false "X" " H24 " 302).rules.map (fun r => r.raw_text) = [some "H24"] ∧
    (parse false "X" " H24 " 302).rules.map (fun r => r.raw_text) ≠ [some " H24 "] := by
  decide

/-- C2 (amended): for every input whose stripped text contains the token
`H24` (case-insensitive, word boundaries — stripping only removes the
whitespace around the text, so this is token containment in the input),
`parse` returns exactly one rule, of notification type H24 with confidence
0.95 and `raw_text` the whitespace-stripped input text, and scoring the
result yields level NONE and score 0.0. -/
theorem C2_h24_short_circuit (icao text : String)
    (h : searchWB h24Body (pyStrip text.data) = true) :
    ((parse false icao text 302).rules.map
        (fun r => (r.notification_type, r.confidence, r.raw_text)) =
      [(NotificationType.h24, (0.95 : ℚ), some (String.mk (pyStrip text.data)))]) ∧
    (HassleScore.from_parsed_rules (parse false icao text 302)).level = HassleLevel.none_ ∧
    (HassleScore.from_parsed_rules (parse false icao text 302)).score = 0.0 := by
  have hne : (pyStrip text.data).isEmpty = false := by
    cases hp : pyStrip text.data with
    | nil => rw [hp] at h; exact absurd h (by decide)
    | cons a l => rfl
  have hne2 : text.data.isEmpty = false := by
    cases ht : text.data with
    | nil =>
      have hp : pyStrip text.data = [] := by rw [ht]; rfl
      rw [hp] at hne
      exact absurd hne (by decide)
    | cons a l => rfl
  have hrules : (parse false icao text 302).rules =
      [schengenAnnot (searchWB schengenBody (pyStrip text.data))
        (searchWB intraSchengenBody (pyStrip text.data))
        { mkRule RuleType.customs NotificationType.h24 with
            raw_text := some (String.mk (pyStrip text.data)), confidence := 0.95 }] := by
    unfold parse
    rw [hne2, hne]
    simp only [Bool.or_self, Bool.false_eq_true, if_false, h, if_true, List.map_cons,
      List.map_nil]
  obtain ⟨f1, f2, f3, -⟩ := schengenAnnot_fields
    (searchWB schengenBody (pyStrip text.data))
    (searchWB intraSchengenBody (pyStrip text.data))
    { mkRule RuleType.customs NotificationType.h24 with
        raw_text := some (String.mk (pyStrip text.data)), confidence := 0.95 }
  have hmap : (parse false icao text 302).rules.map
      (fun r => (r.notification_type, r.confidence, r.raw_text)) =
      [(NotificationType.h24, (0.95 : ℚ), some (String.mk (pyStrip text.data)))] := by
    rw [hrules, List.map_cons, List.map_nil, f1, f2, f3]
    rfl
  refine ⟨hmap, ?_, ?_⟩
  all_goals
    have hh : (parse false icao text 302).has_rules = true := by
      unfold ParsedNotificationRules.has_rules
      rw [hrules]; rfl
    have hh24 : (parse false icao text 302).is_h24 = true := by
      unfold ParsedNotificationRules.is_h24
      rw [hrules, List.any_cons, List.any_nil, f1]
      rfl
    unfold HassleScore.from_parsed_rules
    rw [hh, hh24]
    simp

/-- C2 instantiated at the input `"H24"`: one H24 rule with confidence 0.95
and the full text recorded. -/
theorem C2_h24_short_circuit_witness :
    ((parse false "X" "H24" 302).rules.map
        (fun r => (r.notification_type, r.confidence, r.raw_text)) =
      [(NotificationType.h24, (0.95 : ℚ), some (String.mk (pyStrip "H24".data)))]) :=
  (C2_h24_short_circuit "X" "H24" (by decide)).1

/-- C4 (counterexample): the input `" A "` comes back with `raw_text` `"A"`,
not the verbatim input. -/
theorem C4_raw_text_cex :
    (parse false "X" " A " 302).raw_text = "A" ∧
    (parse false "X" " A " 302).raw_text ≠ " A " := by decide

/-- C4 (amended): `raw_text` of the parse result is the original input when
that input is empty or whitespace-only, and the whitespace-stripped input
otherwise. -/
theorem C4_raw_text_stripped (use_llm : Bool) (icao text : String) (sfid : Int) :
    (parse use_llm icao text sfid).raw_text =
      (if (pyStrip text.data).isEmpty then text else String.mk (pyStrip text.data)) := by
  unfold parse
  cases he : text.data.isEmpty with
  | true =>
    have hp : pyStrip text.data = [] := by
      rw [List.isEmpty_iff] at he
      rw [he]; rfl
    rw [hp]
    simp
  | false =>
    cases hps : (pyStrip text.data).isEmpty with
    | true =>
      rw [List.isEmpty_iff] at hps
      rw [hps]
      simp
    | false => simp [hps]

/-- C5: past the early returns, `max_hours_notice` is `None` exactly when no
rule carries an `hours_notice`; whenever some rule has one (business-day
rules present or not), level and score come from the hours table at
`max_hours_notice`; and the HIGH/0.7 branch applies exactly when no rule has
`hours_notice`. -/
theorem C5_hours_precedence (p : ParsedNotificationRules)
    (h1 : p.has_rules = true) (h2 : p.is_h24 = false) (h3 : p.is_on_request = false)
    (h4 : p.rules.all (fun r => r.notification_type == NotificationType.as_ad_hours) = false) :
    (p.max_hours_notice = none ↔ ∀ r ∈ p.rules, r.hours_notice = none) ∧
    ((HassleScore.from_parsed_rules p).level = (levelScoreOf p.max_hours_notice).1 ∧
     (HassleScore.from_parsed_rules p).score =
       (if hasWeekendB p then ratMin 1.0 ((levelScoreOf p.max_hours_notice).2 + 0.1)
        else (levelScoreOf p.max_hours_notice).2)) ∧
    ((∀ r ∈ p.rules, r.hours_notice = none) →
      (HassleScore.from_parsed_rules p).level = HassleLevel.high ∧
      (HassleScore.from_parsed_rules p).score =
        (if hasWeekendB p then ratMin 1.0 ((0.7 : ℚ) + 0.1) else 0.7)) := by
  have hiff : p.max_hours_notice = none ↔ ∀ r ∈ p.rules, r.hours_notice = none := by
    unfold ParsedNotificationRules.max_hours_notice
    rw [List.max?_eq_none_iff, List.filterMap_eq_nil_iff]
  rw [from_parsed_rules_hoursBranch p h1 h2 h3 h4]
  refine ⟨hiff, ⟨rfl, rfl⟩, fun hall => ?_⟩
  have hmax : p.max_hours_notice = none := hiff.mpr hall
  rw [hmax]
  exact ⟨rfl, rfl⟩

/-- A parsed record with a single business-day rule, used to instantiate C5. -/
def pWitBus : ParsedNotificationRules :=
  { icao := "X",
    rules := [{ mkRule RuleType.ppr NotificationType.business_day with
                  business_day_offset := some (-1) }],
    raw_text := "PN last working day", source_std_field_id := 302, parse_warnings := [] }

/-- C5 instantiated: a business-day-only record is scored HIGH. -/
theorem C5_hours_precedence_witness :
    (HassleScore.from_parsed_rules pWitBus).level = HassleLevel.high :=
  ((C5_hours_precedence pWitBus (by decide) (by decide) (by decide) (by decide)).2.2
    (by decide)).1

/-- C6: past the early returns, the weekend penalty adds 0.1 (clamped at 1)
exactly when some rule has `weekday_start = 5` or `includes_holidays`, the
level is unchanged by the penalty, and `has_weekend_rules` is true exactly
under that condition; concretely, `parse("X", "SAT-SUN, PPR 48 HR")` yields
one rule with `weekday_start=5`, `weekday_end=6`, `hours_notice=48`, scored
0.7 (base 0.6 plus the penalty) with `has_weekend_rules` true. -/
theorem C6_weekend_penalty (p : ParsedNotificationRules)
    (h1 : p.has_rules = true) (h2 : p.is_h24 = false) (h3 : p.is_on_request = false)
    (h4 : p.rules.all (fun r => r.notification_type == NotificationType.as_ad_hours) = false) :
    ((HassleScore.from_parsed_rules p).has_weekend_rules = hasWeekendB p) ∧
    ((HassleScore.from_parsed_rules p).level = (levelScoreOf p.max_hours_notice).1) ∧
    (hasWeekendB p = true →
      (HassleScore.from_parsed_rules p).score =
        ratMin 1.0 ((levelScoreOf p.max_hours_notice).2 + 0.1)) ∧
    (hasWeekendB p = false →
      (HassleScore.from_parsed_rules p).score = (levelScoreOf p.max_hours_notice).2) ∧
    ((parse false "X" "SAT-SUN, PPR 48 HR" 302).rules.map
        (fun r => (r.weekday_start, r.weekday_end, r.hours_notice)) =
      [(some 5, some 6, some 48)]) ∧
    ((HassleScore.from_parsed_rules (parse false "X" "SAT-SUN, PPR 48 HR" 302)).score = 0.7) ∧
    ((HassleScore.from_parsed_rules
        (parse false "X" "SAT-SUN, PPR 48 HR" 302)).has_weekend_rules = true) := by
  have e1 : (parse false "X" "SAT-SUN, PPR 48 HR" 302).has_rules = true := by decide
  have e2 : (parse false "X" "SAT-SUN, PPR 48 HR" 302).is_h24 = false := by decide
  have e3 : (parse false "X" "SAT-SUN, PPR 48 HR" 302).is_on_request = false := by decide
  have e4 : ((parse false "X" "SAT-SUN, PPR 48 HR" 302).rules.all
      (fun r => r.notification_type == NotificationType.as_ad_hours)) = false := by decide
  have e5 : (parse false "X" "SAT-SUN, PPR 48 HR" 302).max_hours_notice = some 48 := by decide
  have e6 : hasWeekendB (parse false "X" "SAT-SUN, PPR 48 HR" 302) = true := by decide
  have hcon := from_parsed_rules_hoursBranch _ e1 e2 e3 e4
  rw [from_parsed_rules_hoursBranch p h1 h2 h3 h4]
  refine ⟨rfl, rfl, fun hw => ?_, fun hw => ?_, by decide, ?_, ?_⟩
  · simp only [hw, if_true]
  · simp only [hw, Bool.false_eq_true, if_false]
  · rw [hcon, e5, e6]
    simp only [if_true]
    have hbase : (levelScoreOf (some 48)).2 = 0.6 := rfl
    rw [hbase]
    unfold ratMin
    rw [if_pos (by norm_num : (0.6 : ℚ) + 0.1 < 1.0)]
    norm_num
  · rw [hcon]
    exact e6

/-- C6 instantiated at `parse("X", "SAT-SUN, PPR 48 HR")`: the flag equals
the weekend condition. -/
theorem C6_weekend_penalty_witness :
    (HassleScore.from_parsed_rules
        (parse false "X" "SAT-SUN, PPR 48 HR" 302)).has_weekend_rules
      = hasWeekendB (parse false "X" "SAT-SUN, PPR 48 HR" 302) :=
  (C6_weekend_penalty (parse false "X" "SAT-SUN, PPR 48 HR" 302)
    (by decide) (by decide) (by decide) (by decide)).1

/-- C9: for empty or whitespace-only input, `parse` returns no rules and the
single warning `"Empty text"`, and scoring that result yields MODERATE, 0.5
and the summary `"Unable to parse notification rules"`. -/
theorem C9_empty_text (use_llm : Bool) (icao text : String) (sfid : Int)
    (h : text.data = [] ∨ ∀ c ∈ text.data, isPyWS c = true) :
    (parse use_llm icao text sfid).rules = [] ∧
    (parse use_llm icao text sfid).parse_warnings = ["Empty text"] ∧
    (HassleScore.from_parsed_rules (parse use_llm icao text sfid)).level =
      HassleLevel.moderate ∧
    (HassleScore.from_parsed_rules (parse use_llm icao text sfid)).score = 0.5 ∧
    (HassleScore.from_parsed_rules (parse use_llm icao text sfid)).summary =
      "Unable to parse notification rules" := by
  have hp : pyStrip text.data = [] := by
    rcases h with h | h
    · rw [h]; rfl
    · unfold pyStrip
      rw [List.dropWhile_eq_nil_iff.mpr (fun x hx => h x hx)]
      rfl
  have hguard : (text.data.isEmpty || (pyStrip text.data).isEmpty) = true := by
    rw [hp]
    simp
  have hparse : parse use_llm icao text sfid =
      { icao := icao, rules := [], raw_text := text, source_std_field_id := sfid,
        parse_warnings := ["Empty text"] } := by
    unfold parse
    rw [hguard]
    rfl
  rw [hparse]
  exact ⟨rfl, rfl, rfl, rfl, rfl⟩

/-- C9 instantiated at a single-space input. -/
theorem C9_empty_text_witness :
    (parse false "X" " " 302).rules = [] ∧
    (parse false "X" " " 302).parse_warnings = ["Empty text"] ∧
    (HassleScore.from_parsed_rules (parse false "X" " " 302)).level =
      HassleLevel.moderate ∧
    (HassleScore.from_parsed_rules (parse false "X" " " 302)).score = 0.5 ∧
    (HassleScore.from_parsed_rules (parse false "X" " " 302)).summary =
      "Unable to parse notification rules" :=
  C9_empty_text false "X" " " 302 (by decide)

/-- The warnings/rules relation of `parse` with the LLM fallback off, over an
arbitrary final rule list. -/
theorem C10_core (R : List NotificationRule) :
    ((if R.isEmpty && false then ["Could not parse with regex or LLM"]
      else if R.isEmpty then ["Could not parse notification rules with regex patterns"]
      else ([] : List String)) = [] ∨
     (if R.isEmpty && false then ["Could not parse with regex or LLM"]
      else if R.isEmpty then ["Could not parse notification rules with regex patterns"]
      else ([] : List String)) = ["Empty text"] ∨
     (if R.isEmpty && false then ["Could not parse with regex or LLM"]
      else if R.isEmpty then ["Could not parse notification rules with regex patterns"]
      else ([] : List String)) =
       ["Could not parse notification rules with regex patterns"]) ∧
    (¬(if R.isEmpty && false then ["Could not parse with regex or LLM"]
       else if R.isEmpty then ["Could not parse notification rules with regex patterns"]
       else ([] : List String)) = [] ↔ R = []) := by
  cases R <;> simp

/-- C10: with the LLM fallback disabled, the parse result carries a non-empty
warning list exactly when it carries no rules, and the warnings are then the
single element `"Empty text"` or
`"Could not parse notification rules with regex patterns"`. -/
theorem C10_warnings_iff_no_rules (icao text : String) (sfid : Int) :
    ((parse false icao text sfid).parse_warnings = [] ∨
     (parse false icao text sfid).parse_warnings = ["Empty text"] ∨
     (parse false icao text sfid).parse_warnings =
       ["Could not parse notification rules with regex patterns"]) ∧
    (¬(parse false icao text sfid).parse_warnings = [] ↔
      (parse false icao text sfid).rules = []) := by
  unfold parse
  split
  · simp
  · exact C10_core _

/-- The dedup loop's invariant: every rule it keeps has an `hours_notice`
not in `seen`, and is the first element of the input with that value. -/
theorem dedupByHours_spec : ∀ (l : List NotificationRule) (seen : List (Option Nat))
    (r : NotificationRule), r ∈ dedupByHours seen l →
    r.hours_notice ∉ seen ∧
      l.find? (fun x => x.hours_notice == r.hours_notice) = some r := by
  intro l
  induction l with
  | nil => intro seen r hr; simp [dedupByHours] at hr
  | cons x rest ih =>
    intro seen r hr
    unfold dedupByHours at hr
    by_cases hx : x.hours_notice ∈ seen
    · rw [if_pos hx] at hr
      obtain ⟨hns, hfind⟩ := ih seen r hr
      have hne : (x.hours_notice == r.hours_notice) = false := by
        rw [beq_eq_false_iff_ne]
        intro he
        exact hns (he ▸ hx)
      refine ⟨hns, ?_⟩
      rw [List.find?_cons_of_neg _ (by simp [hne]), hfind]
    · rw [if_neg hx] at hr
      rcases List.mem_cons.mp hr with rfl | hr'
      · refine ⟨hx, ?_⟩
        rw [List.find?_cons_of_pos _ (by simp)]
      · obtain ⟨hns, hfind⟩ := ih _ r hr'
        have hxr : (x.hours_notice == r.hours_notice) = false := by
          rw [beq_eq_false_iff_ne]
          intro he
          exact hns (he ▸ List.mem_cons_self _ _)
        have hns' : r.hours_notice ∉ seen := fun hh => hns (List.mem_cons_of_mem _ hh)
        refine ⟨hns', ?_⟩
        rw [List.find?_cons_of_neg _ (by simp [hxr]), hfind]

/-- The dedup loop's output has pairwise distinct `hours_notice` values. -/
theorem dedupByHours_pairwise : ∀ (l : List NotificationRule) (seen : List (Option Nat)),
    (dedupByHours seen l).Pairwise (fun a b => a.hours_notice ≠ b.hours_notice) := by
  intro l
  induction l with
  | nil => intro seen; simp [dedupByHours]
  | cons x rest ih =>
    intro seen
    unfold dedupByHours
    by_cases hx : x.hours_notice ∈ seen
    · rw [if_pos hx]; exact ih seen
    · rw [if_neg hx]
      refine List.Pairwise.cons ?_ (ih _)
      intro b hb he
      exact (dedupByHours_spec rest _ b hb).1 (he ▸ List.mem_cons_self _ _)

/-- The dedup loop drops no `hours_notice` value: every input value is
covered by a kept rule or was already seen. -/
theorem dedupByHours_complete : ∀ (l : List NotificationRule) (seen : List (Option Nat))
    (r' : NotificationRule), r' ∈ l →
    r'.hours_notice ∈ seen ∨
      ∃ r ∈ dedupByHours seen l, r.hours_notice = r'.hours_notice := by
  intro l
  induction l with
  | nil => intro seen r' h; cases h
  | cons x rest ih =>
    intro seen r' hr'
    unfold dedupByHours
    by_cases hx : x.hours_notice ∈ seen
    · rw [if_pos hx]
      rcases List.mem_cons.mp hr' with rfl | hmem
      · exact Or.inl hx
      · exact ih seen r' hmem
    · rw [if_neg hx]
      rcases List.mem_cons.mp hr' with rfl | hmem
      · exact Or.inr ⟨r', List.mem_cons_self _ _, rfl⟩
      · rcases ih (x.hours_notice :: seen) r' hmem with hseen | ⟨r, hrmem, hre⟩
        · rcases List.mem_cons.mp hseen with he | hseen'
          · exact Or.inr ⟨x, List.mem_cons_self _ _, he.symm⟩
          · exact Or.inl hseen'
        · exact Or.inr ⟨r, List.mem_cons_of_mem _ hrmem, hre⟩

/-- C7: general-hours extraction returns rules with pairwise distinct
`hours_notice` values, each being the first match in text order with that
value; `parse("X", "PPR 24 HR, PN 24HR")` yields exactly one rule with
`hours_notice=24`. -/
theorem C7_hours_dedup (t : List Char) :
    ((extract_hours_rules t).Pairwise (fun a b => a.hours_notice ≠ b.hours_notice)) ∧
    (∀ r ∈ extract_hours_rules t,
      (rawHoursRules t).find? (fun x => x.hours_notice == r.hours_notice) = some r) ∧
    (∀ r' ∈ rawHoursRules t,
      ∃ r ∈ extract_hours_rules t, r.hours_notice = r'.hours_notice) ∧
    ((parse false "X" "PPR 24 HR, PN 24HR" 302).rules.map (fun r => r.hours_notice) =
      [some 24]) :=
  ⟨dedupByHours_pairwise _ [],
   fun r hr => (dedupByHours_spec _ [] r hr).2,
   fun r' hr' => by
     rcases dedupByHours_complete _ [] r' hr' with h0 | hex
     · cases h0
     · exact hex,
   by decide⟩

/-- Weekday extraction never sets a Schengen flag. -/
theorem extract_weekday_rules_flags (t : List Char) :
    ∀ r ∈ extract_weekday_rules t,
      r.schengen_only = false ∧ r.non_schengen_only = false := by
  intro r hr
  obtain ⟨m, -, rfl⟩ := List.mem_map.mp hr
  exact ⟨rfl, rfl⟩

/-- Raw hours extraction never sets a Schengen flag. -/
theorem rawHoursRules_flags (t : List Char) :
    ∀ r ∈ rawHoursRules t,
      r.schengen_only = false ∧ r.non_schengen_only = false := by
  intro r hr
  obtain ⟨m, -, rfl⟩ := List.mem_map.mp hr
  exact ⟨rfl, rfl⟩

/-- Business-day extraction never sets a Schengen flag. -/
theorem extract_business_day_rules_flags (t : List Char) :
    ∀ r ∈ extract_business_day_rules t,
      r.schengen_only = false ∧ r.non_schengen_only = false := by
  intro r hr
  obtain ⟨m, -, rfl⟩ := List.mem_map.mp hr
  exact ⟨rfl, rfl⟩

/-- Members of the dedup loop's output come from its input. -/
theorem dedupByHours_subset (l : List NotificationRule) (seen : List (Option Nat))
    (r : NotificationRule) (hr : r ∈ dedupByHours seen l) : r ∈ l :=
  List.mem_of_find?_eq_some (dedupByHours_spec l seen r hr).2

/-- No rule produced before the Schengen-context loop carries a Schengen
flag (the statement's list is the `rules` accumulator of `parse` as built by
the extraction chain). -/
theorem preSchengenRules_flags (t : List Char) :
    ∀ r ∈ (if searchWB h24Body t then
            [{ mkRule RuleType.customs NotificationType.h24 with
                raw_text := some (String.mk t), confidence := 0.95 }]
          else if searchWB onRequestBody t && !searchPlain hoursPat t then
            [{ mkRule RuleType.customs NotificationType.on_request with
                raw_text := some (String.mk t), confidence := 0.9 }]
          else if searchWB asAdHoursBody t && !searchPlain hoursPat t then
            [{ mkRule RuleType.customs NotificationType.as_ad_hours with
                raw_text := some (String.mk t), confidence := 0.9 }]
          else
            (if (extract_weekday_rules t).isEmpty then extract_hours_rules t
             else extract_weekday_rules t) ++ extract_business_day_rules t),
      r.schengen_only = false ∧ r.non_schengen_only = false := by
  intro r hr
  split at hr
  · rw [List.mem_singleton] at hr
    subst hr; exact ⟨rfl, rfl⟩
  split at hr
  · rw [List.mem_singleton] at hr
    subst hr; exact ⟨rfl, rfl⟩
  split at hr
  · rw [List.mem_singleton] at hr
    subst hr; exact ⟨rfl, rfl⟩
  · rcases List.mem_append.mp hr with hr' | hr'
    · split at hr'
      · exact rawHoursRules_flags t r (dedupByHours_subset _ _ r hr')
      · exact extract_weekday_rules_flags t r hr'
    · exact extract_business_day_rules_flags t r hr'

/-- Pointwise effect of the Schengen-context loop on rules without flags:
never both flags, and neither flag when both pattern families matched. -/
theorem C8_core (s1 s2 : Bool) (R : List NotificationRule)
    (hR : ∀ r ∈ R, r.schengen_only = false ∧ r.non_schengen_only = false) :
    ((R.map (schengenAnnot s1 s2)).all
        (fun r => !(r.schengen_only && r.non_schengen_only)) = true) ∧
    (s1 = true → s2 = true →
      (R.map (schengenAnnot s1 s2)).all
        (fun r => !r.schengen_only && !r.non_schengen_only) = true) := by
  constructor
  · rw [List.all_eq_true]
    intro x hx
    obtain ⟨r, hrR, rfl⟩ := List.mem_map.mp hx
    obtain ⟨hs, hn⟩ := hR r hrR
    unfold schengenAnnot
    split
    · simp [hs]
    split
    · simp [hn]
    · simp [hs]
  · intro hs1 hs2
    rw [List.all_eq_true]
    intro x hx
    obtain ⟨r, hrR, rfl⟩ := List.mem_map.mp hx
    obtain ⟨hs, hn⟩ := hR r hrR
    unfold schengenAnnot
    rw [hs1, hs2]
    simp [hs, hn]

/-- C8: in every parse result, no rule has both `schengen_only` and
`non_schengen_only` set; and when the text matches both the non-Schengen and
the intra-Schengen phrase families, every rule keeps both flags false. -/
theorem C8_schengen_exclusive (use_llm : Bool) (icao text : String) (sfid : Int) :
    ((parse use_llm icao text sfid).rules.all
        (fun r => !(r.schengen_only && r.non_schengen_only)) = true) ∧
    (searchWB schengenBody (pyStrip text.data) = true →
      searchWB intraSchengenBody (pyStrip text.data) = true →
      (parse use_llm icao text sfid).rules.all
        (fun r => !r.schengen_only && !r.non_schengen_only) = true) := by
  unfold parse
  split
  · exact ⟨rfl, fun _ _ => rfl⟩
  · exact C8_core _ _ _ (preSchengenRules_flags (pyStrip text.data))

/-- The pydantic field constraints of `NotificationRule`: confidence in
`[0, 1]`, weekday numbers in `[0, 6]` (`Nat`, so only the upper bounds). -/
def ruleWF (r : NotificationRule) : Prop :=
  0 ≤ r.confidence ∧ r.confidence ≤ 1 ∧
    (∀ d, r.weekday_start = some d → d ≤ 6) ∧ (∀ d, r.weekday_end = some d → d ≤ 6)

/-- The pydantic field constraint of `HassleScore`: score in `[0, 1]`. -/
def scoreWF (h : HassleScore) : Prop := 0 ≤ h.score ∧ h.score ≤ 1

/-- `dayMap` only produces day numbers in `[0, 6]`. -/
theorem dayMap_bounds {s : String} {a : Nat} {b : Option Nat}
    (h : dayMap s = some (a, b)) : a ≤ 6 ∧ ∀ x, b = some x → x ≤ 6 := by
  unfold dayMap at h
  repeat' split at h
  all_goals
    first
    | (injection h with h'
       injection h' with ha hb
       subst ha
       subst hb
       refine ⟨by omega, ?_⟩
       intro x hx
       cases hx <;> omega)
    | cases h

/-- `_parse_day` only produces day numbers in `[0, 6]`. -/
theorem parse_day_bounds (d : List Char) :
    (∀ x, (parse_day d).1 = some x → x ≤ 6) ∧
    (∀ x, (parse_day d).2.1 = some x → x ≤ 6) := by
  rcases hdm : dayMap (String.mk (pyStrip (reSubDel holSubPat
      (pyStrip (d.map Char.toLower))))) with - | ⟨a, b⟩
  · refine ⟨fun x hx => ?_, fun x hx => ?_⟩ <;>
    · simp only [parse_day, hdm] at hx
      cases hx
  · obtain ⟨ha, hb⟩ := dayMap_bounds hdm
    refine ⟨fun x hx => ?_, fun x hx => ?_⟩
    · simp only [parse_day, hdm, Option.some.injEq] at hx
      omega
    · simp only [parse_day, hdm] at hx
      exact hb x hx

/-- Weekday extraction produces well-formed rules. -/
theorem extract_weekday_rules_wf (t : List Char) :
    ∀ r ∈ extract_weekday_rules t, ruleWF r := by
  intro r hr
  obtain ⟨m, -, rfl⟩ := List.mem_map.mp hr
  refine ⟨by norm_num, by norm_num, ?_, ?_⟩
  · intro d hd
    exact (parse_day_bounds m.2.1).1 d hd
  · intro d hd
    rcases hm2 : m.2.2.1 with - | d2
    · rw [hm2] at hd
      exact (parse_day_bounds m.2.1).2 d hd
    · rw [hm2] at hd
      exact (parse_day_bounds d2).1 d hd

/-- Raw hours extraction produces well-formed rules. -/
theorem rawHoursRules_wf (t : List Char) : ∀ r ∈ rawHoursRules t, ruleWF r := by
  intro r hr
  obtain ⟨m, -, rfl⟩ := List.mem_map.mp hr
  refine ⟨by norm_num, by norm_num, ?_, ?_⟩ <;>
  · intro d hd
    simp [mkRule] at hd

/-- Business-day extraction produces well-formed rules. -/
theorem extract_business_day_rules_wf (t : List Char) :
    ∀ r ∈ extract_business_day_rules t, ruleWF r := by
  intro r hr
  obtain ⟨m, -, rfl⟩ := List.mem_map.mp hr
  refine ⟨by norm_num, by norm_num, ?_, ?_⟩ <;>
  · intro d hd
    simp [mkRule] at hd

/-- Every rule built before the Schengen-context loop is well-formed. -/
theorem preSchengenRules_wf (t : List Char) :
    ∀ r ∈ (if searchWB h24Body t then
            [{ mkRule RuleType.customs NotificationType.h24 with
                raw_text := some (String.mk t), confidence := 0.95 }]
          else if searchWB onRequestBody t && !searchPlain hoursPat t then
            [{ mkRule RuleType.customs NotificationType.on_request with
                raw_text := some (String.mk t), confidence := 0.9 }]
          else if searchWB asAdHoursBody t && !searchPlain hoursPat t then
            [{ mkRule RuleType.customs NotificationType.as_ad_hours with
                raw_text := some (String.mk t), confidence := 0.9 }]
          else
            (if (extract_weekday_rules t).isEmpty then extract_hours_rules t
             else extract_weekday_rules t) ++ extract_business_day_rules t),
      ruleWF r := by
  intro r hr
  split at hr
  · rw [List.mem_singleton] at hr
    subst hr
    refine ⟨by norm_num, by norm_num, ?_, ?_⟩ <;>
    · intro d hd
      simp [mkRule] at hd
  split at hr
  · rw [List.mem_singleton] at hr
    subst hr
    refine ⟨by norm_num, by norm_num, ?_, ?_⟩ <;>
    · intro d hd
      simp [mkRule] at hd
  split at hr
  · rw [List.mem_singleton] at hr
    subst hr
    refine ⟨by norm_num, by norm_num, ?_, ?_⟩ <;>
    · intro d hd
      simp [mkRule] at hd
  · rcases List.mem_append.mp hr with hr' | hr'
    · split at hr'
      · exact rawHoursRules_wf t r (dedupByHours_subset _ _ r hr')
      · exact extract_weekday_rules_wf t r hr'
    · exact extract_business_day_rules_wf t r hr'

/-- The Schengen-context loop preserves well-formedness. -/
theorem schengenAnnot_wf (a b : Bool) (r : NotificationRule) (h : ruleWF r) :
    ruleWF (schengenAnnot a b r) := by
  obtain ⟨f1, f2, f3, f4, f5, f6, f7⟩ := schengenAnnot_fields a b r
  obtain ⟨h1, h2, h3, h4⟩ := h
  exact ⟨f2 ▸ h1, f2 ▸ h2, f5 ▸ h3, f6 ▸ h4⟩

/-- The base-score table stays within `[0.15, 0.9]`. -/
theorem levelScoreOf_bounds (mh : Option Nat) :
    (0.15 : ℚ) ≤ (levelScoreOf mh).2 ∧ (levelScoreOf mh).2 ≤ 0.9 := by
  rcases mh with - | m
  · norm_num [levelScoreOf]
  · rw [levelScoreOf_some]
    split_ifs <;> norm_num

/-- C3: `parse` is total and structurally valid — for every input (empty,
whitespace, arbitrary characters) it returns a `ParsedNotificationRules`
whose rules all satisfy the pydantic field constraints — and
`from_parsed_rules` is total on every `ParsedNotificationRules`, returning a
score within `[0, 1]`. -/
theorem C3_totality (use_llm : Bool) (icao text : String) (sfid : Int)
    (q : ParsedNotificationRules) :
    (∀ r ∈ (parse use_llm icao text sfid).rules, ruleWF r) ∧
    scoreWF (HassleScore.from_parsed_rules q) := by
  constructor
  · unfold parse
    split
    · intro r hr
      cases hr
    · intro r hr
      obtain ⟨r0, hr0, rfl⟩ := List.mem_map.mp hr
      exact schengenAnnot_wf _ _ r0 (preSchengenRules_wf (pyStrip text.data) r0 hr0)
  · unfold HassleScore.from_parsed_rules scoreWF
    split
    · norm_num
    split
    · norm_num
    split
    · norm_num
    split
    · norm_num
    · obtain ⟨hb1, hb2⟩ := levelScoreOf_bounds q.max_hours_notice
      show 0 ≤ (if hasWeekendB q then ratMin 1.0 ((levelScoreOf q.max_hours_notice).2 + 0.1)
             else (levelScoreOf q.max_hours_notice).2) ∧
           (if hasWeekendB q then ratMin 1.0 ((levelScoreOf q.max_hours_notice).2 + 0.1)
             else (levelScoreOf q.max_hours_notice).2) ≤ 1
      split
      · unfold ratMin
        split
        · constructor <;> linarith
        · norm_num
      · constructor <;> linarith

end GA
